import Mathlib

/-!
Verification development for the NGRAM search-term analyzer (src/app.py).

The analytic core of the program is embedded shallowly:
* pandas cells are modelled by `Cell` (a number, a text value, or NaN);
* pandas float results of the ratio columns are modelled by `PFloat`,
  which records NaN and the two infinities produced by division by zero;
* the column-mapping, numeric coercion, match-type normalization,
  group-by aggregation, ratio columns, wasted-spend filter and n-gram
  rollup of app.py main are translated function by function.

Numeric cells are modelled by rationals; the numeric-literal parser used
by pd.to_numeric is modelled by a sign/integer/fraction parser, which is
the fragment relevant to the claims (the claims depend only on the
parse-or-zero fallback, never on which exact strings parse).
-/

namespace NGramApp

/-- A pandas cell: a numeric value, a string value, or missing (NaN). -/
inductive Cell where
  | num (q : ℚ)
  | txt (s : String)
  | na
deriving DecidableEq

/-- Substring occurrence test on character lists (Python `pat in s`). -/
def listHas (p : List Char) : List Char → Bool
  | [] => p.isEmpty
  | c :: rest => p.isPrefixOf (c :: rest) || listHas p rest

/-- Python string containment: `pat in s` (case sensitive). -/
def strContains (s pat : String) : Bool :=
  listHas pat.toList s.toList

/-- str.upper(), character by character. -/
def pyUpper (s : String) : String :=
  String.mk (s.toList.map Char.toUpper)

/-- str.lower(), character by character. -/
def pyLower (s : String) : String :=
  String.mk (s.toList.map Char.toLower)

/-- str.strip(): drop whitespace from both ends. -/
def pyStrip (s : String) : String :=
  String.mk (((s.toList.dropWhile Char.isWhitespace).reverse.dropWhile
    Char.isWhitespace).reverse)

/-- Helper of pySplit: accumulate the current word (reversed) while
walking the characters. -/
def splitWsAux (cur : List Char) : List Char → List String
  | [] => if cur.isEmpty then [] else [String.mk cur.reverse]
  | c :: rest =>
      if c.isWhitespace then
        if cur.isEmpty then splitWsAux [] rest
        else String.mk cur.reverse :: splitWsAux [] rest
      else splitWsAux (c :: cur) rest

/-- Join a list of words with single spaces (the join in line 37). -/
def joinSpace : List String → String
  | [] => ""
  | w :: rest => rest.foldl (fun a b => a ++ " " ++ b) w

/-- Value of a digit list read in base 10. -/
def digitsToNat (ds : List Char) : ℕ :=
  ds.foldl (fun a c => 10 * a + (c.toNat - ('0').toNat)) 0

/-- Numeric-literal parser modelling the strings accepted by
pd.to_numeric: optional surrounding whitespace, optional sign, digits
with an optional fractional part. Returns none on parse failure. -/
def parseDecimal (s : String) : Option ℚ :=
  let cs := (pyStrip s).toList
  let sgn : ℚ × List Char :=
    match cs with
    | '-' :: rest => (-1, rest)
    | '+' :: rest => (1, rest)
    | _ => (1, cs)
  let ip := sgn.2.takeWhile Char.isDigit
  let rest := sgn.2.dropWhile Char.isDigit
  match rest with
  | [] => if ip.isEmpty then none else some (sgn.1 * (digitsToNat ip : ℚ))
  | '.' :: fp =>
      if fp.all Char.isDigit && !(ip.isEmpty && fp.isEmpty) then
        some (sgn.1 * ((digitsToNat ip : ℚ) + (digitsToNat fp : ℚ) / (10 : ℚ) ^ fp.length))
      else none
  | _ => none

/-- pd.to_numeric with errors equal to coerce: numbers pass through,
parseable text becomes a number, anything else becomes NaN. -/
def toNumericCoerce : Cell → Cell
  | Cell.num q => Cell.num q
  | Cell.txt s =>
      match parseDecimal s with
      | some q => Cell.num q
      | none => Cell.na
  | Cell.na => Cell.na

/-- DataFrame.fillna(0) on one cell: NaN becomes 0, others unchanged. -/
def fillnaZero : Cell → Cell
  | Cell.na => Cell.num 0
  | c => c

/-- The numeric value of a metric cell after coercion and zero fill
(app.py line 82). -/
def coerceMetric (c : Cell) : ℚ :=
  match fillnaZero (toNumericCoerce c) with
  | Cell.num q => q
  | _ => 0

/-- Python str() of a cell value as used before tokenizing; NaN prints
as the three letters nan, numbers via their rational rendering. -/
def cellToString : Cell → String
  | Cell.num q => toString q
  | Cell.txt s => s
  | Cell.na => "nan"

/-- Numeric value of an already-coerced cell (reading a metric column
after line 82 has run). -/
def cellQ : Cell → ℚ
  | Cell.num q => q
  | _ => 0

/-- Text of a cell known to hold a string (the norm_match column). -/
def cellText : Cell → String
  | Cell.txt s => s
  | _ => ""

/-- app.py lines 26-32: normalize a match-type cell. NaN gives UNKNOWN;
otherwise the uppercased text is searched for EXACT, then PHRASE, then
BROAD; no hit gives AUTO/OTHER. -/
def normalize_match_type (val : Cell) : String :=
  match val with
  | Cell.na => "UNKNOWN"
  | v =>
      let s := pyUpper (cellToString v)
      if strContains s "EXACT" then "EXACT"
      else if strContains s "PHRASE" then "PHRASE"
      else if strContains s "BROAD" then "BROAD"
      else "AUTO/OTHER"

/-- Python str.split() with no argument: split on whitespace runs,
dropping empty pieces. -/
def pySplit (s : String) : List String :=
  splitWsAux [] s.toList

/-- app.py lines 34-37: lowercase and whitespace-tokenize the text, then
emit every window of n consecutive tokens joined by single spaces;
fewer than n tokens give no windows. -/
def generate_ngrams (text : Cell) (n : ℕ) : List String :=
  let words := pySplit (pyLower (cellToString text))
  if words.length < n then []
  else (List.range (words.length - n + 1)).map
    (fun i => joinSpace ((words.drop i).take n))

/-- A pandas float as produced by the ratio columns: a finite rational,
NaN, or one of the infinities produced by dividing by zero. -/
inductive PFloat where
  | num (q : ℚ)
  | nan
  | pinf
  | ninf
deriving DecidableEq

/-- Pandas elementwise division of two finite values: zero by zero is
NaN, nonzero by zero is a signed infinity. -/
def pdivQ (a b : ℚ) : PFloat :=
  if b = 0 then
    (if a = 0 then PFloat.nan else if 0 < a then PFloat.pinf else PFloat.ninf)
  else PFloat.num (a / b)

/-- Multiplication by the scalar 100 (positive, so infinities keep
their sign and NaN stays NaN). -/
def pmul100 : PFloat → PFloat
  | PFloat.num q => PFloat.num (q * 100)
  | x => x

/-- Series.fillna(0): NaN becomes 0; infinities are untouched. -/
def pfillna0 : PFloat → PFloat
  | PFloat.nan => PFloat.num 0
  | x => x

/-- Series.round(1) on a finite value; NaN and infinities untouched.
Rational model of the float rounding; the rounding mode at exact
halves is immaterial to every claim. -/
def pround1 : PFloat → PFloat
  | PFloat.num q => PFloat.num (((round (q * 10) : ℤ) : ℚ) / 10)
  | x => x

/-- app.py line 93 and line 133: ACOS column, (spend / sales * 100)
then fillna(0) then round(1). -/
def acosCalc (spend sales : ℚ) : PFloat :=
  pround1 (pfillna0 (pmul100 (pdivQ spend sales)))

/-- app.py line 94: ROAS column, (sales / spend) then fillna(0) then
round(1). -/
def roasCalc (sales spend : ℚ) : PFloat :=
  pround1 (pfillna0 (pdivQ sales spend))

/-- Helper of dedupFirst: keep elements not seen before. -/
def dedupAux {α : Type} [DecidableEq α] (seen : List α) : List α → List α
  | [] => []
  | a :: rest =>
      if a ∈ seen then dedupAux seen rest
      else a :: dedupAux (a :: seen) rest

/-- The distinct values of a list, first occurrence first. pandas
groupby sorts its keys; key order is immaterial to every claim, so the
group keys are modelled in first-appearance order. -/
def dedupFirst {α : Type} [DecidableEq α] (l : List α) : List α :=
  dedupAux [] l

/-! ## The table pipeline of main (app.py lines 70-94) -/

/-- A raw DataFrame: labelled columns and rows of cells. -/
structure Table where
  cols : List String
  rows : List (List Cell)
deriving DecidableEq

/-- Index of the first column with the given label. -/
def idxOf? (name : String) : List String → Option ℕ
  | [] => none
  | c :: rest => if c = name then some 0 else (idxOf? name rest).map (· + 1)

/-- Whether a column with this label exists. -/
def hasCol (cols : List String) (name : String) : Bool :=
  (idxOf? name cols).isSome

/-- The resolved source column for each canonical field. -/
structure ColMap where
  term : String
  camp : String
  adg : String
  mtype : String
  spend : String
  sales : String
  orders : String
  clicks : String
deriving DecidableEq

/-- app.py lines 70-79: resolve each field to the first column whose
label contains the search text, else fall back to the fixed name. -/
def colMap (cols : List String) : ColMap where
  term := (cols.find? (fun c => strContains c "Customer Search Term" ||
    strContains c "Matched product")).getD "Search Term"
  camp := (cols.find? (fun c => strContains c "Campaign Name")).getD "Campaign"
  adg := (cols.find? (fun c => strContains c "Ad Group Name")).getD "Ad Group"
  mtype := (cols.find? (fun c => strContains c "Match Type")).getD "Match Type"
  spend := (cols.find? (fun c => strContains c "Spend")).getD "Spend"
  sales := (cols.find? (fun c => strContains c "Sales")).getD "Sales"
  orders := (cols.find? (fun c => strContains c "Orders")).getD "Orders"
  clicks := (cols.find? (fun c => strContains c "Clicks")).getD "Clicks"

/-- app.py line 82 for one metric key: reading the column raises a
KeyError when it is absent; otherwise every cell is coerced to numeric
with zero fill, in place. -/
def applyNumeric (t : Table) (name : String) : Except String Table :=
  match idxOf? name t.cols with
  | none => Except.error ("KeyError: " ++ name)
  | some i => Except.ok
      ⟨t.cols, t.rows.map (fun r => r.set i (fillnaZero (toNumericCoerce (r.getD i Cell.na))))⟩

/-- app.py line 83: read the match-type column (KeyError when absent)
and append a norm_match column holding the normalized text. -/
def addNormMatch (t : Table) (name : String) : Except String Table :=
  match idxOf? name t.cols with
  | none => Except.error ("KeyError: " ++ name)
  | some i => Except.ok
      ⟨t.cols ++ ["norm_match"],
       t.rows.map (fun r => r ++ [Cell.txt (normalize_match_type (r.getD i Cell.na))])⟩

/-- One row of the table entering the group-by of line 86: raw grouping
cells, the normalized match text, and the coerced metric values. -/
structure NRow where
  term : Cell
  camp : Cell
  adg : Cell
  nmatch : String
  spend : ℚ
  sales : ℚ
  orders : ℚ
  clicks : ℚ
deriving DecidableEq

/-- The cell of a named column in one row (NaN when out of range). -/
def colCellAt (cols : List String) (r : List Cell) (name : String) : Cell :=
  match idxOf? name cols with
  | some i => r.getD i Cell.na
  | none => Cell.na

/-- app.py line 86, key lookup part: the group-by raises a KeyError
when a grouping column is absent; otherwise each row is read into an
NRow. The column map is the one computed from the original columns. -/
def finishRows (cols0 : List String) (t : Table) : Except String (List NRow) :=
  let m := colMap cols0
  match idxOf? m.term t.cols with
  | none => Except.error "KeyError: groupby keys"
  | some it =>
  match idxOf? m.camp t.cols with
  | none => Except.error "KeyError: groupby keys"
  | some ic =>
  match idxOf? m.adg t.cols with
  | none => Except.error "KeyError: groupby keys"
  | some ia =>
  match idxOf? "norm_match" t.cols with
  | none => Except.error "KeyError: groupby keys"
  | some im => Except.ok
      (t.rows.map (fun r =>
        { term := r.getD it Cell.na
        , camp := r.getD ic Cell.na
        , adg := r.getD ia Cell.na
        , nmatch := cellText (r.getD im Cell.na)
        , spend := cellQ (colCellAt t.cols r m.spend)
        , sales := cellQ (colCellAt t.cols r m.sales)
        , orders := cellQ (colCellAt t.cols r m.orders)
        , clicks := cellQ (colCellAt t.cols r m.clicks) }))

/-- app.py lines 70-86 before the aggregation proper: column mapping,
numeric coercion of the four metric columns in source order, the
norm_match column, and the group-by key lookups. -/
def analyzeRows (t : Table) : Except String (List NRow) := do
  let m := colMap t.cols
  let t1 ← applyNumeric t m.spend
  let t2 ← applyNumeric t1 m.sales
  let t3 ← applyNumeric t2 m.orders
  let t4 ← applyNumeric t3 m.clicks
  let t5 ← addNormMatch t4 m.mtype
  finishRows t.cols t5

/-- Whether an Except value is a success. -/
def isOkE {α : Type} : Except String α → Bool
  | Except.ok _ => true
  | Except.error _ => false

/-- All eight resolved column names exist in the table. -/
def resolvedOk (t : Table) : Bool :=
  let m := colMap t.cols
  hasCol t.cols m.spend && hasCol t.cols m.sales && hasCol t.cols m.orders &&
  hasCol t.cols m.clicks && hasCol t.cols m.mtype && hasCol t.cols m.term &&
  hasCol t.cols m.camp && hasCol t.cols m.adg

/-! ## Aggregation (app.py lines 86-94) -/

/-- The group-by key of line 86: term, campaign, ad group, norm_match. -/
def rowKey (r : NRow) : Cell × Cell × Cell × String :=
  (r.term, r.camp, r.adg, r.nmatch)

/-- pandas groupby keeps a row only when no level of its key is NaN. -/
def keyValid (k : Cell × Cell × Cell × String) : Bool :=
  !(decide (k.1 = Cell.na)) && !(decide (k.2.1 = Cell.na)) && !(decide (k.2.2.1 = Cell.na))

/-- The rows that survive the group-by key NaN filter. -/
def validRows (rows : List NRow) : List NRow :=
  rows.filter (fun r => keyValid (rowKey r))

/-- The distinct group keys, in order of first appearance. -/
def aggKeys (rows : List NRow) : List (Cell × Cell × Cell × String) :=
  dedupFirst ((validRows rows).map rowKey)

/-- One aggregated output row: the key fields with summed metrics. -/
structure AggRow where
  term : Cell
  camp : Cell
  adg : Cell
  nmatch : String
  spend : ℚ
  sales : ℚ
  orders : ℚ
  clicks : ℚ
deriving DecidableEq

/-- The aggregated row of one group key: sums over the rows carrying
that exact key. -/
def aggBuild (rows : List NRow) (k : Cell × Cell × Cell × String) : AggRow :=
  let grp := (validRows rows).filter (fun r => decide (rowKey r = k))
  { term := k.1
  , camp := k.2.1
  , adg := k.2.2.1
  , nmatch := k.2.2.2
  , spend := (grp.map NRow.spend).sum
  , sales := (grp.map NRow.sales).sum
  , orders := (grp.map NRow.orders).sum
  , clicks := (grp.map NRow.clicks).sum }

/-- app.py lines 86-91: group by (term, campaign, ad group, norm_match)
and sum the four metrics per group. -/
def aggregate (rows : List NRow) : List AggRow :=
  (aggKeys rows).map (aggBuild rows)

/-- An aggregated row extended with the two ratio columns. -/
structure AggRowR extends AggRow where
  acos : PFloat
  roas : PFloat
deriving DecidableEq

/-- app.py lines 93-94: attach the ACOS and ROAS columns. -/
def withRatios (l : List AggRow) : List AggRowR :=
  l.map (fun a =>
    { toAggRow := a
    , acos := acosCalc a.spend a.sales
    , roas := roasCalc a.sales a.spend })

/-- app.py line 138: the wasted-spend view keeps aggregated rows with
zero orders and spend at least the threshold. The subsequent
sort_values only reorders and is omitted. -/
def wastedView (l : List AggRowR) (thr : ℚ) : List AggRowR :=
  l.filter (fun a => decide (a.orders = 0) && decide (thr ≤ a.spend))

/-! ## N-gram rollup (app.py lines 126-133) -/

/-- One entry of the ngram_data list built in lines 127-130: a window
with the full metric values of its source row. -/
structure GRow where
  gram : String
  spend : ℚ
  sales : ℚ
  orders : ℚ
deriving DecidableEq

/-- app.py lines 126-130: fan every aggregated row out to one entry
per n-gram window of its term, each carrying the full row metrics. -/
def ngramData (l : List AggRowR) (n : ℕ) : List GRow :=
  (l.map (fun row => (generate_ngrams row.term n).map
    (fun g => GRow.mk g row.spend row.sales row.orders))).flatten

/-- One output row of the n-gram table: the gram text, summed metrics,
and the ACOS column of line 133. -/
structure NGRow where
  gram : String
  spend : ℚ
  sales : ℚ
  orders : ℚ
  acos : PFloat
deriving DecidableEq

/-- app.py lines 132-133: group the ngram_data entries by gram text,
sum spend, sales and orders, and attach ACOS. -/
def ngramRollup (l : List AggRowR) (n : ℕ) : List NGRow :=
  let data := ngramData l n
  (dedupFirst (data.map GRow.gram)).map (fun g =>
    let grp := data.filter (fun d => decide (d.gram = g))
    let sp := (grp.map GRow.spend).sum
    let sa := (grp.map GRow.sales).sum
    let od := (grp.map GRow.orders).sum
    NGRow.mk g sp sa od (acosCalc sp sa))

/-- The number of contributing window instances of one gram text: the
(row, window) pairs of the spec language. -/
def pairCount (l : List AggRowR) (n : ℕ) (g : String) : ℕ :=
  ((ngramData l n).filter (fun d => decide (d.gram = g))).length

/-- Total spend over the aggregated output rows. -/
def aggSpendTotal (l : List AggRow) : ℚ := (l.map AggRow.spend).sum

/-- Total sales over the aggregated output rows. -/
def aggSalesTotal (l : List AggRow) : ℚ := (l.map AggRow.sales).sum

/-- Total orders over the aggregated output rows. -/
def aggOrdersTotal (l : List AggRow) : ℚ := (l.map AggRow.orders).sum

/-- Total clicks over the aggregated output rows. -/
def aggClicksTotal (l : List AggRow) : ℚ := (l.map AggRow.clicks).sum

/-- Total spend over input rows. -/
def rowSpendTotal (l : List NRow) : ℚ := (l.map NRow.spend).sum

/-- Total sales over input rows. -/
def rowSalesTotal (l : List NRow) : ℚ := (l.map NRow.sales).sum

/-- Total orders over input rows. -/
def rowOrdersTotal (l : List NRow) : ℚ := (l.map NRow.orders).sum

/-- Total clicks over input rows. -/
def rowClicksTotal (l : List NRow) : ℚ := (l.map NRow.clicks).sum

/-! ## Concrete inputs used by counterexamples and witnesses -/

/-- A normalized row with positive spend and zero sales. -/
def c2row : NRow :=
  ⟨Cell.txt "shoes", Cell.txt "c1", Cell.txt "g1", "EXACT", 10, 0, 0, 0⟩

/-- The aggregated row produced from c2row, with its ratio columns. -/
def c2aggW : AggRowR :=
  ⟨⟨Cell.txt "shoes", Cell.txt "c1", Cell.txt "g1", "EXACT", 10, 0, 0, 0⟩,
   PFloat.pinf, PFloat.num 0⟩

/-- The n-gram output row produced from c2aggW at gram size 1. -/
def c2ngW : NGRow := ⟨"shoes", 10, 0, 0, PFloat.pinf⟩

/-- A row whose term cell is missing. -/
def c3row : NRow :=
  ⟨Cell.na, Cell.txt "c1", Cell.txt "g1", "EXACT", 5, 0, 0, 0⟩

/-- A table having only the term column. -/
def c6table : Table := ⟨["Search Term"], [[Cell.txt "shoes"]]⟩

/-- An aggregated row whose term repeats the same token twice. -/
def c7rowA : AggRowR :=
  ⟨⟨Cell.txt "x x", Cell.txt "c1", Cell.txt "g1", "EXACT", 2, 0, 0, 0⟩,
   PFloat.pinf, PFloat.num 0⟩

/-- An aggregated row with a one-token term and twice the spend. -/
def c7rowB : AggRowR :=
  ⟨⟨Cell.txt "x", Cell.txt "c1", Cell.txt "g1", "EXACT", 4, 0, 0, 0⟩,
   PFloat.pinf, PFloat.num 0⟩

/-- The common n-gram output row of c7rowA and c7rowB at gram size 1. -/
def c7out : NGRow := ⟨"x", 4, 0, 0, PFloat.pinf⟩

/-- A three-token aggregated row for the n-gram window witness. -/
def c1rowW : AggRowR :=
  ⟨⟨Cell.txt "Blue Wireless Mouse", Cell.txt "c1", Cell.txt "g1", "EXACT", 90, 300, 2, 5⟩,
   PFloat.num 30, PFloat.num (10 / 3)⟩

/-- The first gram-size-2 window entry of c1rowW. -/
def c1gramW : GRow := ⟨"blue wireless", 90, 300, 2⟩

/-- A table with one column and no rows. -/
def c8tA : Table := ⟨["A"], []⟩

/-- A table with the same column and different cell values. -/
def c8tB : Table := ⟨["A"], [[Cell.txt "zz"]]⟩

/-! ## Helper lemmas -/

lemma mem_dedupAux {α : Type} [DecidableEq α] (l : List α) :
    ∀ (seen : List α) (a : α), a ∈ dedupAux seen l ↔ a ∈ l ∧ a ∉ seen := by
  induction l with
  | nil => intro seen a; simp [dedupAux]
  | cons b rest ih =>
    intro seen a
    by_cases hb : b ∈ seen
    · by_cases hab : a = b <;> simp [dedupAux, hb, ih, hab]
    · by_cases hab : a = b <;> simp [dedupAux, hb, ih, hab]

lemma mem_dedupFirst {α : Type} [DecidableEq α] (l : List α) (a : α) :
    a ∈ dedupFirst l ↔ a ∈ l := by
  simp [dedupFirst, mem_dedupAux]

lemma nodup_dedupAux {α : Type} [DecidableEq α] (l : List α) :
    ∀ seen, (dedupAux seen l).Nodup := by
  induction l with
  | nil => intro seen; simp [dedupAux]
  | cons b rest ih =>
    intro seen
    by_cases hb : b ∈ seen
    · simpa [dedupAux, hb] using ih seen
    · have hstep : dedupAux seen (b :: rest) = b :: dedupAux (b :: seen) rest := by
        simp [dedupAux, hb]
      rw [hstep, List.nodup_cons]
      refine ⟨fun hmem => ?_, ih (b :: seen)⟩
      exact ((mem_dedupAux rest (b :: seen) b).mp hmem).2 (List.mem_cons_self b seen)

lemma nodup_dedupFirst {α : Type} [DecidableEq α] (l : List α) :
    (dedupFirst l).Nodup :=
  nodup_dedupAux l []

/-- Boolean list membership by decidable equality. -/
def memB {α : Type} [DecidableEq α] (a : α) : List α → Bool
  | [] => false
  | b :: rest => if a = b then true else memB a rest

lemma memB_iff {α : Type} [DecidableEq α] (a : α) (l : List α) :
    memB a l = true ↔ a ∈ l := by
  induction l with
  | nil => simp [memB]
  | cons b rest ih =>
    by_cases hab : a = b <;> simp [memB, hab, ih]

lemma sum_filter_disjoint {R : Type} (g : R → ℚ) (p q : R → Bool) (l : List R)
    (h : ∀ r, p r = true → q r = true → False) :
    ((l.filter (fun r => p r || q r)).map g).sum
      = ((l.filter p).map g).sum + ((l.filter q).map g).sum := by
  induction l with
  | nil => simp
  | cons a l ih =>
    by_cases hp : p a = true <;> by_cases hq : q a = true
    · exact absurd (h a hp hq) not_false
    · simp [List.filter_cons, hp, hq, ih]; ring
    · simp [List.filter_cons, hp, hq, ih]; ring
    · simp [List.filter_cons, hp, hq, ih]

lemma sum_groups {K R : Type} [DecidableEq K] (f : R → K) (g : R → ℚ) (l : List R) :
    ∀ (ks : List K), ks.Nodup →
      ((ks.map (fun k => ((l.filter (fun r => decide (f r = k))).map g).sum)).sum)
        = ((l.filter (fun r => memB (f r) ks)).map g).sum := by
  intro ks
  induction ks with
  | nil => intro _; simp [memB]
  | cons k ks ih =>
    intro hnd
    have hk : k ∉ ks := (List.nodup_cons.mp hnd).1
    have hnd2 : ks.Nodup := (List.nodup_cons.mp hnd).2
    have hsplit : (fun r => memB (f r) (k :: ks))
        = (fun r => decide (f r = k) || memB (f r) ks) := by
      funext r
      by_cases h1 : f r = k <;> simp [memB, h1]
    rw [List.map_cons, List.sum_cons, ih hnd2, hsplit,
      sum_filter_disjoint g _ _ l]
    intro r h1 h2
    rw [decide_eq_true_eq] at h1
    rw [memB_iff] at h2
    exact hk (h1 ▸ h2)

lemma normalize_match_type_mem (c : Cell) :
    normalize_match_type c ∈ ["UNKNOWN", "EXACT", "PHRASE", "BROAD", "AUTO/OTHER"] := by
  cases c with
  | na => simp [normalize_match_type]
  | txt s =>
    simp only [normalize_match_type]
    split_ifs <;> simp
  | num q =>
    simp only [normalize_match_type]
    split_ifs <;> simp

lemma idxOf?_append_isSome (x y : String) :
    ∀ (l : List String), (idxOf? x (l ++ [y])).isSome
      = ((idxOf? x l).isSome || decide (x = y)) := by
  intro l
  induction l with
  | nil =>
    by_cases h : y = x
    · simp [idxOf?, h]
    · simp [idxOf?, h, show ¬x = y from fun he => h he.symm]
  | cons c rest ih =>
    by_cases h : c = x <;> simp [idxOf?, h, ih, Bool.or_assoc]

lemma colMap_term_ne (cols : List String) : (colMap cols).term ≠ "norm_match" := by
  intro hc
  simp only [colMap] at hc
  cases h : cols.find? (fun c => strContains c "Customer Search Term" ||
      strContains c "Matched product") with
  | none => rw [h] at hc; exact absurd hc (by decide)
  | some c =>
    rw [h, Option.getD_some] at hc
    have hp := List.find?_some h
    rw [hc] at hp
    exact absurd hp (by decide)

lemma colMap_camp_ne (cols : List String) : (colMap cols).camp ≠ "norm_match" := by
  intro hc
  simp only [colMap] at hc
  cases h : cols.find? (fun c => strContains c "Campaign Name") with
  | none => rw [h] at hc; exact absurd hc (by decide)
  | some c =>
    rw [h, Option.getD_some] at hc
    have hp := List.find?_some h
    rw [hc] at hp
    exact absurd hp (by decide)

lemma colMap_adg_ne (cols : List String) : (colMap cols).adg ≠ "norm_match" := by
  intro hc
  simp only [colMap] at hc
  cases h : cols.find? (fun c => strContains c "Ad Group Name") with
  | none => rw [h] at hc; exact absurd hc (by decide)
  | some c =>
    rw [h, Option.getD_some] at hc
    have hp := List.find?_some h
    rw [hc] at hp
    exact absurd hp (by decide)

lemma hasCol_append_norm (l : List String) (x : String) (hne : x ≠ "norm_match") :
    (idxOf? x (l ++ ["norm_match"])).isSome = hasCol l x := by
  rw [idxOf?_append_isSome]
  simp [hasCol, hne]

lemma analyzeRows_isOk (t : Table) : isOkE (analyzeRows t) = resolvedOk t := by
  simp only [analyzeRows, resolvedOk, bind, Except.bind]
  cases h1 : idxOf? (colMap t.cols).spend t.cols with
  | none => simp [applyNumeric, h1, isOkE, hasCol]
  | some i1 =>
  simp only [applyNumeric, h1]
  cases h2 : idxOf? (colMap t.cols).sales t.cols with
  | none => simp [h2, isOkE, hasCol, h1]
  | some i2 =>
  simp only [h2]
  cases h3 : idxOf? (colMap t.cols).orders t.cols with
  | none => simp [h3, isOkE, hasCol, h1, h2]
  | some i3 =>
  simp only [h3]
  cases h4 : idxOf? (colMap t.cols).clicks t.cols with
  | none => simp [h4, isOkE, hasCol, h1, h2, h3]
  | some i4 =>
  simp only [h4]
  simp only [addNormMatch]
  cases h5 : idxOf? (colMap t.cols).mtype t.cols with
  | none => simp [h5, isOkE, hasCol, h1, h2, h3, h4]
  | some i5 =>
  simp only [h5]
  simp only [finishRows]
  have hterm := hasCol_append_norm t.cols (colMap t.cols).term (colMap_term_ne t.cols)
  have hcamp := hasCol_append_norm t.cols (colMap t.cols).camp (colMap_camp_ne t.cols)
  have hadg := hasCol_append_norm t.cols (colMap t.cols).adg (colMap_adg_ne t.cols)
  have hnm : (idxOf? "norm_match" (t.cols ++ ["norm_match"])).isSome = true := by
    rw [idxOf?_append_isSome]
    simp
  cases h6 : idxOf? (colMap t.cols).term (t.cols ++ ["norm_match"]) with
  | none =>
    rw [h6] at hterm
    simp only [Option.isSome_none, hasCol] at hterm
    simp [isOkE, hasCol, h1, h2, h3, h4, h5, ← hterm]
  | some i6 =>
  rw [h6] at hterm
  simp only [Option.isSome_some, hasCol] at hterm
  simp only [h6]
  cases h7 : idxOf? (colMap t.cols).camp (t.cols ++ ["norm_match"]) with
  | none =>
    rw [h7] at hcamp
    simp only [Option.isSome_none, hasCol] at hcamp
    simp [isOkE, hasCol, h1, h2, h3, h4, h5, ← hterm, ← hcamp]
  | some i7 =>
  rw [h7] at hcamp
  simp only [Option.isSome_some, hasCol] at hcamp
  simp only [h7]
  cases h8 : idxOf? (colMap t.cols).adg (t.cols ++ ["norm_match"]) with
  | none =>
    rw [h8] at hadg
    simp only [Option.isSome_none, hasCol] at hadg
    simp [isOkE, hasCol, h1, h2, h3, h4, h5, ← hterm, ← hcamp, ← hadg]
  | some i8 =>
  rw [h8] at hadg
  simp only [Option.isSome_some, hasCol] at hadg
  simp only [h8]
  cases h9 : idxOf? "norm_match" (t.cols ++ ["norm_match"]) with
  | none => rw [h9] at hnm; simp at hnm
  | some i9 =>
  simp [isOkE, hasCol, h1, h2, h3, h4, h5, ← hterm, ← hcamp, ← hadg]

lemma sum_over_aggregate (rows : List NRow) (g : NRow → ℚ) (g' : AggRow → ℚ)
    (hproj : ∀ k, g' (aggBuild rows k)
      = (((validRows rows).filter (fun r => decide (rowKey r = k))).map g).sum) :
    ((aggregate rows).map g').sum = ((validRows rows).map g).sum := by
  have h1 : ((aggregate rows).map g').sum
      = ((aggKeys rows).map (fun k =>
          (((validRows rows).filter (fun r => decide (rowKey r = k))).map g).sum)).sum := by
    rw [aggregate, List.map_map]
    exact congrArg List.sum (List.map_congr_left (fun k _ => hproj k))
  rw [h1, sum_groups rowKey g (validRows rows) (aggKeys rows) (by
    simpa [aggKeys] using nodup_dedupFirst ((validRows rows).map rowKey))]
  have h2 : (validRows rows).filter (fun r => memB (rowKey r) (aggKeys rows))
      = validRows rows := by
    apply List.filter_eq_self.mpr
    intro r hr
    rw [memB_iff, aggKeys, mem_dedupFirst]
    exact List.mem_map_of_mem rowKey hr
  exact congrArg (fun l => (l.map g).sum) h2

/-! ## Claim theorems -/

/-- C2 counterexample: the claimed ratio policy fails on the code. On
the aggregated output of a row with spend 10 and sales 0 the ACOS
column is positive infinity, not 0 (pandas fillna(0) only replaces the
NaN produced by 0/0, not the infinity produced by 10/0); moreover the
code scales ACOS by 100 and rounds both ratios to one decimal, so even
with a nonzero denominator the columns do not equal spend/sales or
sales/spend. -/
theorem c2_ratio_counterexample :
    (withRatios (aggregate [c2row])).map AggRowR.acos = [PFloat.pinf]
    ∧ PFloat.pinf ≠ PFloat.num 0
    ∧ acosCalc 1 2 = PFloat.num 50 ∧ PFloat.num 50 ≠ PFloat.num (1 / 2)
    ∧ roasCalc 10 3 = PFloat.num (33 / 10) ∧ PFloat.num (33 / 10) ≠ PFloat.num (10 / 3) := by
  with_unfolding_all decide

/-- C2 (amended): on every aggregated and n-gram output row, ACOS is
100 times spend/sales rounded to one decimal when sales is nonzero, 0
when spend and sales are both 0, and a signed infinity when spend is
nonzero and sales is 0; ROAS is sales/spend rounded to one decimal
when spend is nonzero, 0 when both are 0, and a signed infinity when
sales is nonzero and spend is 0. -/
theorem c2_ratio_policy (spend sales : ℚ) (rows : List NRow) (a : AggRowR)
    (l : List AggRowR) (n : ℕ) (o : NGRow)
    (ha : a ∈ withRatios (aggregate rows)) (ho : o ∈ ngramRollup l n) :
    acosCalc spend sales
      = (if sales = 0 then
          (if spend = 0 then PFloat.num 0
           else if 0 < spend then PFloat.pinf else PFloat.ninf)
         else PFloat.num (((round (spend / sales * 100 * 10) : ℤ) : ℚ) / 10))
    ∧ roasCalc sales spend
      = (if spend = 0 then
          (if sales = 0 then PFloat.num 0
           else if 0 < sales then PFloat.pinf else PFloat.ninf)
         else PFloat.num (((round (sales / spend * 10) : ℤ) : ℚ) / 10))
    ∧ a.acos = acosCalc a.spend a.sales
    ∧ a.roas = roasCalc a.sales a.spend
    ∧ o.acos = acosCalc o.spend o.sales := by
  refine ⟨?_, ?_, ?_, ?_, ?_⟩
  · simp only [acosCalc, pdivQ, pmul100, pfillna0, pround1]
    split_ifs <;> simp_all
  · simp only [roasCalc, pdivQ, pfillna0, pround1]
    split_ifs <;> simp_all
  · simp only [withRatios, List.mem_map] at ha
    obtain ⟨a0, _, rfl⟩ := ha
    rfl
  · simp only [withRatios, List.mem_map] at ha
    obtain ⟨a0, _, rfl⟩ := ha
    rfl
  · simp only [ngramRollup, List.mem_map] at ho
    obtain ⟨g, _, rfl⟩ := ho
    rfl

/-- C3 counterexample: conservation fails for rows whose grouping-key
cells are missing. A single input row with a NaN term cell and spend 5
produces an empty aggregation, so the summed spend 0 differs from the
input total 5. -/
theorem c3_conservation_counterexample :
    aggregate [c3row] = []
    ∧ aggSpendTotal (aggregate [c3row]) = 0
    ∧ rowSpendTotal [c3row] = 5
    ∧ (5 : ℚ) ≠ 0 := by
  with_unfolding_all decide

/-- C3 (amended): conservation restricted to rows whose grouping-key
cells are all present. For every input row set, the sums of spend,
sales, orders and clicks over all aggregated output rows equal the
corresponding sums over the input rows that survive the NaN key
filter of the group-by; rows with a missing term, campaign or ad-group
cell are excluded from the totals. -/
theorem c3_conservation (rows : List NRow) :
    aggSpendTotal (aggregate rows) = rowSpendTotal (validRows rows)
    ∧ aggSalesTotal (aggregate rows) = rowSalesTotal (validRows rows)
    ∧ aggOrdersTotal (aggregate rows) = rowOrdersTotal (validRows rows)
    ∧ aggClicksTotal (aggregate rows) = rowClicksTotal (validRows rows) :=
  ⟨sum_over_aggregate rows NRow.spend AggRow.spend (fun _ => rfl),
   sum_over_aggregate rows NRow.sales AggRow.sales (fun _ => rfl),
   sum_over_aggregate rows NRow.orders AggRow.orders (fun _ => rfl),
   sum_over_aggregate rows NRow.clicks AggRow.clicks (fun _ => rfl)⟩

/-- C4 counterexample: match-type normalization is not idempotent on
its own output. A missing match cell normalizes to UNKNOWN, and the
text UNKNOWN normalizes to AUTO/OTHER, not to UNKNOWN, because it
contains none of the three searched substrings. -/
theorem c4_renormalize_counterexample :
    normalize_match_type Cell.na = "UNKNOWN"
    ∧ normalize_match_type (Cell.txt (normalize_match_type Cell.na)) = "AUTO/OTHER"
    ∧ ("AUTO/OTHER" : String) ≠ "UNKNOWN" := by decide

/-- C4 (amended): re-running normalization fixes every value except
UNKNOWN. Numeric coercion is idempotent on every cell, and
re-normalizing an already-normalized match value returns it unchanged
for EXACT, PHRASE, BROAD and AUTO/OTHER, while UNKNOWN (the value of a
missing cell) re-normalizes to AUTO/OTHER. -/
theorem c4_renormalize (c : Cell) :
    coerceMetric (Cell.num (coerceMetric c)) = coerceMetric c
    ∧ normalize_match_type (Cell.txt (normalize_match_type c))
        = (if normalize_match_type c = "UNKNOWN" then "AUTO/OTHER"
           else normalize_match_type c) := by
  constructor
  · rfl
  · have hm := normalize_match_type_mem c
    simp only [List.mem_cons, List.not_mem_nil, or_false] at hm
    rcases hm with h | h | h | h | h <;> rw [h] <;> decide

/-- C5 counterexample: an empty match-type cell does not map to
UNKNOWN. The empty string is not NaN, so it falls through the three
substring tests and normalizes to AUTO/OTHER. -/
theorem c5_match_counterexample :
    normalize_match_type (Cell.txt "") = "AUTO/OTHER"
    ∧ normalize_match_type (Cell.txt "") ≠ "UNKNOWN" := by decide

/-- C5 (amended): match-type normalization tests the uppercased cell
text for EXACT, then PHRASE, then BROAD, returning the first hit,
AUTO/OTHER when none occurs; UNKNOWN is returned exactly for a
missing/NaN cell, and never for any text cell, the empty string
included. -/
theorem c5_match_normalization (s : String) :
    normalize_match_type Cell.na = "UNKNOWN"
    ∧ (normalize_match_type (Cell.txt s) = "EXACT"
        ↔ strContains (pyUpper s) "EXACT" = true)
    ∧ (normalize_match_type (Cell.txt s) = "PHRASE"
        ↔ (strContains (pyUpper s) "PHRASE" = true ∧ strContains (pyUpper s) "EXACT" = false))
    ∧ (normalize_match_type (Cell.txt s) = "BROAD"
        ↔ (strContains (pyUpper s) "BROAD" = true ∧ strContains (pyUpper s) "EXACT" = false
            ∧ strContains (pyUpper s) "PHRASE" = false))
    ∧ (normalize_match_type (Cell.txt s) = "AUTO/OTHER"
        ↔ (strContains (pyUpper s) "EXACT" = false ∧ strContains (pyUpper s) "PHRASE" = false
            ∧ strContains (pyUpper s) "BROAD" = false))
    ∧ normalize_match_type (Cell.txt s) ≠ "UNKNOWN"
    ∧ normalize_match_type (Cell.txt "") = "AUTO/OTHER" := by
  have hPE : ("PHRASE" : String) ≠ "EXACT" := by decide
  have hBE : ("BROAD" : String) ≠ "EXACT" := by decide
  have hAE : ("AUTO/OTHER" : String) ≠ "EXACT" := by decide
  have hEP : ("EXACT" : String) ≠ "PHRASE" := by decide
  have hBP : ("BROAD" : String) ≠ "PHRASE" := by decide
  have hAP : ("AUTO/OTHER" : String) ≠ "PHRASE" := by decide
  have hEB : ("EXACT" : String) ≠ "BROAD" := by decide
  have hPB : ("PHRASE" : String) ≠ "BROAD" := by decide
  have hAB : ("AUTO/OTHER" : String) ≠ "BROAD" := by decide
  have hEA : ("EXACT" : String) ≠ "AUTO/OTHER" := by decide
  have hPA : ("PHRASE" : String) ≠ "AUTO/OTHER" := by decide
  have hBA : ("BROAD" : String) ≠ "AUTO/OTHER" := by decide
  have hEU : ("EXACT" : String) ≠ "UNKNOWN" := by decide
  have hPU : ("PHRASE" : String) ≠ "UNKNOWN" := by decide
  have hBU : ("BROAD" : String) ≠ "UNKNOWN" := by decide
  have hAU : ("AUTO/OTHER" : String) ≠ "UNKNOWN" := by decide
  refine ⟨rfl, ?_, ?_, ?_, ?_, ?_, by decide⟩ <;>
    · simp only [normalize_match_type, cellToString]
      split_ifs with hx1 hx2 hx3 <;>
        simp_all [hPE, hBE, hAE, hEP, hBP, hAP, hEB, hPB, hAB, hEA, hPA, hBA,
          hEU, hPU, hBU, hAU]

/-- C9: the wasted-spend view keeps an aggregated row exactly when its
orders are 0 and its spend is at least the threshold; the comparison
is greater-or-equal, so a zero-order row with spend equal to the
threshold is included and one below it is excluded. -/
theorem c9_wasted_view (l : List AggRowR) (thr : ℚ) (a : AggRowR) :
    a ∈ wastedView l thr ↔ (a ∈ l ∧ a.orders = 0 ∧ thr ≤ a.spend) := by
  simp [wastedView, List.mem_filter, and_assoc]

/-- C10: rows whose term, campaign or ad-group cell is missing are
silently dropped by the aggregation: the aggregate of any row list
equals the aggregate of its valid-key rows alone, and therefore the
wasted-spend view and the n-gram rollup built from the aggregated
table are also unchanged by deleting the NaN-key rows. -/
theorem c10_dropped_nan_keys (rows : List NRow) (n : ℕ) (thr : ℚ) :
    aggregate rows = aggregate (validRows rows)
    ∧ wastedView (withRatios (aggregate rows)) thr
        = wastedView (withRatios (aggregate (validRows rows))) thr
    ∧ ngramRollup (withRatios (aggregate rows)) n
        = ngramRollup (withRatios (aggregate (validRows rows))) n := by
  have hvv : validRows (validRows rows) = validRows rows :=
    List.filter_eq_self.mpr (fun r hr => (List.mem_filter.mp hr).2)
  have h1 : aggregate rows = aggregate (validRows rows) := by
    simp only [aggregate, aggKeys, hvv]
    exact List.map_congr_left (fun k _ => by simp only [aggBuild, hvv])
  exact ⟨h1, by rw [h1], by rw [h1]⟩

/-- C2 witness at spend 3, sales 4 and the outputs built from c2row. -/
theorem c2_ratio_policy_witness :
    (acosCalc 3 4
      = (if (4 : ℚ) = 0 then
          (if (3 : ℚ) = 0 then PFloat.num 0
           else if 0 < (3 : ℚ) then PFloat.pinf else PFloat.ninf)
         else PFloat.num (((round ((3 : ℚ) / 4 * 100 * 10) : ℤ) : ℚ) / 10)))
    ∧ (roasCalc 4 3
      = (if (3 : ℚ) = 0 then
          (if (4 : ℚ) = 0 then PFloat.num 0
           else if 0 < (4 : ℚ) then PFloat.pinf else PFloat.ninf)
         else PFloat.num (((round ((4 : ℚ) / 3 * 10) : ℤ) : ℚ) / 10)))
    ∧ c2aggW.acos = acosCalc c2aggW.spend c2aggW.sales
    ∧ c2aggW.roas = roasCalc c2aggW.sales c2aggW.spend
    ∧ c2ngW.acos = acosCalc c2ngW.spend c2ngW.sales :=
  c2_ratio_policy 3 4 [c2row] c2aggW [c2aggW] 1 c2ngW
    (by with_unfolding_all decide) (by with_unfolding_all decide)

/-- C1: for every term cell and gram size n in the offered set, the
emitted window list has length max(0, k-n+1) where k is the number of
lowercased whitespace tokens; window i is tokens i..i+n-1 joined by
single spaces and holds exactly n tokens; and the fan-out list of the
rollup has one entry per (row, window) pair, each entry carrying the
full, undivided spend, sales and orders of its source row. -/
theorem c1_ngram_windows (text : Cell) (n i : ℕ) (l : List AggRowR) (d : GRow)
    (hn : n ∈ ([1, 2, 3, 4] : List ℕ))
    (hi : i < (generate_ngrams text n).length)
    (hd : d ∈ ngramData l n) :
    ((generate_ngrams text n).length : ℤ)
      = max 0 (((pySplit (pyLower (cellToString text))).length : ℤ) - n + 1)
    ∧ (generate_ngrams text n)[i]?
        = some (joinSpace (((pySplit (pyLower (cellToString text))).drop i).take n))
    ∧ (((pySplit (pyLower (cellToString text))).drop i).take n).length = n
    ∧ (ngramData l n).length
        = (l.map (fun row => (generate_ngrams row.term n).length)).sum
    ∧ ∃ row, row ∈ l ∧ d.gram ∈ generate_ngrams row.term n
        ∧ d.spend = row.spend ∧ d.sales = row.sales ∧ d.orders = row.orders := by
  have hlen : (ngramData l n).length
      = (l.map (fun row => (generate_ngrams row.term n).length)).sum := by
    rw [ngramData, List.length_flatten, List.map_map]
    exact congrArg List.sum (List.map_congr_left (fun row _ => by
      simp [Function.comp, List.length_map]))
  have hex : ∃ row, row ∈ l ∧ d.gram ∈ generate_ngrams row.term n
      ∧ d.spend = row.spend ∧ d.sales = row.sales ∧ d.orders = row.orders := by
    simp only [ngramData, List.mem_flatten, List.mem_map] at hd
    obtain ⟨sub, ⟨row, hrow, rfl⟩, hd2⟩ := hd
    simp only [List.mem_map] at hd2
    obtain ⟨g, hg, rfl⟩ := hd2
    exact ⟨row, hrow, by simpa using hg, rfl, rfl, rfl⟩
  by_cases h : (pySplit (pyLower (cellToString text))).length < n
  · have h0 : (generate_ngrams text n).length = 0 := by
      simp [generate_ngrams, h]
    rw [h0] at hi
    exact absurd hi (by omega)
  · refine ⟨?_, ?_, ?_, hlen, hex⟩
    · simp only [generate_ngrams, if_neg h, List.length_map, List.length_range]
      rw [max_eq_right (by omega)]
      omega
    · have hi2 : i < (pySplit (pyLower (cellToString text))).length - n + 1 := by
        simpa [generate_ngrams, if_neg h] using hi
      simp [generate_ngrams, if_neg h, List.getElem?_map, List.getElem?_range, hi2]
    · have hi2 : i < (pySplit (pyLower (cellToString text))).length - n + 1 := by
        simpa [generate_ngrams, if_neg h] using hi
      simp only [List.length_take, List.length_drop]
      omega

/-- C1 witness at the three-token term of c1rowW, gram size 2,
window 0, and the first fan-out entry c1gramW. -/
theorem c1_ngram_windows_witness :
    ((generate_ngrams (Cell.txt "Blue Wireless Mouse") 2).length : ℤ)
      = max 0 (((pySplit (pyLower (cellToString (Cell.txt "Blue Wireless Mouse")))).length : ℤ)
          - 2 + 1)
    ∧ (generate_ngrams (Cell.txt "Blue Wireless Mouse") 2)[0]?
        = some (joinSpace
            (((pySplit (pyLower (cellToString (Cell.txt "Blue Wireless Mouse")))).drop 0).take 2))
    ∧ (((pySplit (pyLower (cellToString (Cell.txt "Blue Wireless Mouse")))).drop 0).take 2).length
        = 2
    ∧ (ngramData [c1rowW] 2).length
        = ([c1rowW].map (fun row => (generate_ngrams row.term 2).length)).sum
    ∧ ∃ row, row ∈ [c1rowW] ∧ c1gramW.gram ∈ generate_ngrams row.term 2
        ∧ c1gramW.spend = row.spend ∧ c1gramW.sales = row.sales
        ∧ c1gramW.orders = row.orders :=
  c1_ngram_windows (Cell.txt "Blue Wireless Mouse") 2 0 [c1rowW] c1gramW
    (by decide) (by decide) (by with_unfolding_all decide)

/-- C6 counterexample: a table having only the term column does not
run with zero-filled metrics; reading the unresolved Spend column
raises a KeyError and the run fails. -/
theorem c6_resolution_counterexample :
    analyzeRows c6table = Except.error "KeyError: Spend"
    ∧ isOkE (analyzeRows c6table) = false :=
  ⟨by with_unfolding_all rfl, by with_unfolding_all rfl⟩

/-- C6 (amended): the run succeeds exactly when all eight mapped
columns (spend, sales, orders, clicks, match type, term, campaign, ad
group) resolve to existing columns; an unresolvable metric or
match-type column aborts the run just as an unresolvable term column
does, and no field is zero-filled in place of a missing column. -/
theorem c6_resolution_failure (t : Table) :
    isOkE (analyzeRows t) = resolvedOk t :=
  analyzeRows_isOk t

/-- C7 counterexample: the rollup records no occurrence count. The
single-row inputs c7rowA (term with the token x twice, spend 2) and
c7rowB (one token x, spend 4) have 2 and 1 contributing (row, window)
pairs for the gram x, yet produce identical n-gram output rows, so no
output field can equal the occurrence count. -/
theorem c7_occurrence_counterexample :
    ngramRollup [c7rowA] 1 = ngramRollup [c7rowB] 1
    ∧ ngramRollup [c7rowA] 1 = [c7out]
    ∧ pairCount [c7rowA] 1 "x" = 2
    ∧ pairCount [c7rowB] 1 "x" = 1
    ∧ (2 : ℕ) ≠ 1 := by
  with_unfolding_all decide

/-- C7 (amended): each emitted n-gram output row carries the gram text
and the sums of spend, sales and orders over its contributing
(row, window) pairs plus the derived ACOS, and nothing else; no
occurrence count is recorded. Every emitted gram has at least one
contributing pair, but the pair count is not a field of the output. -/
theorem c7_rollup_fields (l : List AggRowR) (n : ℕ) (o : NGRow)
    (ho : o ∈ ngramRollup l n) :
    o.spend = (((ngramData l n).filter
        (fun d => decide (d.gram = o.gram))).map GRow.spend).sum
    ∧ o.sales = (((ngramData l n).filter
        (fun d => decide (d.gram = o.gram))).map GRow.sales).sum
    ∧ o.orders = (((ngramData l n).filter
        (fun d => decide (d.gram = o.gram))).map GRow.orders).sum
    ∧ o.acos = acosCalc o.spend o.sales
    ∧ 1 ≤ pairCount l n o.gram := by
  simp only [ngramRollup, List.mem_map] at ho
  obtain ⟨g, hg, rfl⟩ := ho
  refine ⟨rfl, rfl, rfl, rfl, ?_⟩
  rw [mem_dedupFirst] at hg
  simp only [List.mem_map] at hg
  obtain ⟨d, hd, hdg⟩ := hg
  have hmem : d ∈ (ngramData l n).filter (fun d2 => decide (d2.gram = g)) :=
    List.mem_filter.mpr ⟨hd, by simp [hdg]⟩
  have hne := List.ne_nil_of_mem hmem
  have hpos := List.length_pos.mpr hne
  simpa [pairCount] using hpos

/-- C7 witness at the repeated-token row c7rowA and its output c7out. -/
theorem c7_rollup_fields_witness :
    c7out.spend = (((ngramData [c7rowA] 1).filter
        (fun d => decide (d.gram = c7out.gram))).map GRow.spend).sum
    ∧ c7out.sales = (((ngramData [c7rowA] 1).filter
        (fun d => decide (d.gram = c7out.gram))).map GRow.sales).sum
    ∧ c7out.orders = (((ngramData [c7rowA] 1).filter
        (fun d => decide (d.gram = c7out.gram))).map GRow.orders).sum
    ∧ c7out.acos = acosCalc c7out.spend c7out.sales
    ∧ 1 ≤ pairCount [c7rowA] 1 c7out.gram :=
  c7_rollup_fields [c7rowA] 1 c7out (by with_unfolding_all decide)

/-- C8: numeric coercion with zero fallback is total and never aborts
the run. Every coerced cell is a number; a missing or unparseable cell
coerces to exactly 0; a parseable cell coerces to its parsed value; an
already numeric cell is unchanged; and whether the pipeline succeeds
depends only on the column labels, never on the cell values, so a
malformed numeric cell cannot make the run fail. -/
theorem c8_numeric_coercion (t t' : Table) (c : Cell) (s s' : String) (q q1 : ℚ)
    (hcols : t.cols = t'.cols) (hfail : parseDecimal s = none)
    (hok : parseDecimal s' = some q) :
    (∃ q0 : ℚ, fillnaZero (toNumericCoerce c) = Cell.num q0)
    ∧ coerceMetric Cell.na = 0
    ∧ coerceMetric (Cell.txt s) = 0
    ∧ coerceMetric (Cell.txt s') = q
    ∧ coerceMetric (Cell.num q1) = q1
    ∧ isOkE (analyzeRows t) = isOkE (analyzeRows t') := by
  refine ⟨?_, rfl, ?_, ?_, rfl, ?_⟩
  · cases c with
    | num q2 => exact ⟨q2, rfl⟩
    | na => exact ⟨0, rfl⟩
    | txt s0 =>
      cases hp : parseDecimal s0 with
      | none => exact ⟨0, by simp [toNumericCoerce, fillnaZero, hp]⟩
      | some q2 => exact ⟨q2, by simp [toNumericCoerce, fillnaZero, hp]⟩
  · simp [coerceMetric, toNumericCoerce, fillnaZero, hfail]
  · simp [coerceMetric, toNumericCoerce, fillnaZero, hok]
  · rw [analyzeRows_isOk, analyzeRows_isOk]
    simp only [resolvedOk, hcols]

/-- C8 witness: a NaN cell, the unparseable text abc, the parseable
text 3.5, the number 5, and two equal-schema tables with different
cell values. -/
theorem c8_numeric_coercion_witness :
    (∃ q0 : ℚ, fillnaZero (toNumericCoerce Cell.na) = Cell.num q0)
    ∧ coerceMetric Cell.na = 0
    ∧ coerceMetric (Cell.txt "abc") = 0
    ∧ coerceMetric (Cell.txt "3.5") = 7 / 2
    ∧ coerceMetric (Cell.num 5) = 5
    ∧ isOkE (analyzeRows c8tA) = isOkE (analyzeRows c8tB) :=
  c8_numeric_coercion c8tA c8tB Cell.na "abc" "3.5" (7 / 2) 5 rfl
    (by decide) (by with_unfolding_all decide)

end NGramApp
